import Mathlib

set_option maxHeartbeats 1000000

/-!
Verification of the UK single-channel news bot pipeline (`src/main.py`).

Python strings are modelled shallowly as lists of Unicode code points
(`PyStr := List Nat`); Python's `str.lower`, `str.strip`, `str.split`
and substring containment (`in`) are embedded code-point by code-point.
Timestamps are modelled as integer minutes.  The SHA-256 digest used as
the dedup key is modelled as the injective identity on its pre-image
(a collision-free abstraction of a collision-resistant hash).
`difflib.SequenceMatcher.ratio` (Python standard library, external to
the repository) is kept as an explicit function parameter `sim` of the
duplicate detector.
-/

namespace NewsBot

/-- A Python string: its sequence of Unicode code points. -/
abbrev PyStr := List Nat

/-- Convenience constructor for concrete `PyStr` values from Lean string literals. -/
def str (s : String) : PyStr := s.toList.map Char.toNat

/-- Whitespace as recognised by Python `str.split()` / `str.strip()`
(ASCII subset: space, tab, LF, VT, FF, CR). -/
def isSpace (c : Nat) : Bool := c == 32 || c == 9 || c == 10 || c == 11 || c == 12 || c == 13

/-- One code point of Python `str.lower()` (ASCII range; other code points kept). -/
def lowerChar (c : Nat) : Nat := if 65 ≤ c ∧ c ≤ 90 then c + 32 else c

/-- Python `str.lower()`. -/
def lowerStr (s : PyStr) : PyStr := s.map lowerChar

/-- Python `str.strip()`: drop leading and trailing whitespace. -/
def stripStr (s : PyStr) : PyStr := ((s.dropWhile isSpace).reverse.dropWhile isSpace).reverse

/-- Negation of `isSpace`, the predicate that delimits words in `str.split()`. -/
def notSpace (c : Nat) : Bool := !(isSpace c)

/-- Fuel-indexed worker for `str.split()`; the fuel (at least the string's
length) only makes the recursion structural, the result is fuel-independent
once the fuel suffices. -/
def splitWSAux : Nat → PyStr → List PyStr
  | 0, _ => []
  | _ + 1, [] => []
  | fuel + 1, c :: cs =>
    if isSpace c then splitWSAux fuel cs
    else (c :: cs.takeWhile notSpace) :: splitWSAux fuel (cs.dropWhile notSpace)

/-- Python `str.split()` with no separator argument: split on runs of
whitespace, discarding empty fields. -/
def splitWS (s : PyStr) : List PyStr := splitWSAux s.length s

/-- Python `" ".join(words)`. -/
def joinSpace : List PyStr → PyStr
  | [] => []
  | [w] => w
  | w :: ws => w ++ 32 :: joinSpace ws

/-- `normalize_text` from `src/main.py`:
`" ".join(text.lower().strip().split())`. -/
def normalize_text (s : PyStr) : PyStr := joinSpace (splitWS (stripStr (lowerStr s)))

/-- Python substring containment `needle in hay`. -/
def hasSub (needle : PyStr) : PyStr → Bool
  | [] => decide (needle = [])
  | c :: cs => needle.isPrefixOf (c :: cs) || hasSub needle cs

/-- `text_contains_any` from `src/main.py`: lower-case the text and test
each needle for substring containment. -/
def text_contains_any (text : PyStr) (needles : List PyStr) : Bool :=
  needles.any (fun n => hasSub n (lowerStr text))

/-- An ASCII decimal digit, as matched by the `\d` regex class. -/
def isDigit (c : Nat) : Bool := 48 ≤ c && c ≤ 57

/-- `has_numbers` from `src/main.py`: the regex
`(\d+(\.\d+)?)|(%|Â£|\$)` searched anywhere in the text.  It matches iff
some digit occurs, or `%`, or the two-code-point sequence U+00C2 U+00A3
(the source file's mojibake for the pound sign), or `$`. -/
def has_numbers (s : PyStr) : Bool :=
  s.any isDigit || hasSub [37] s || hasSub [194, 163] s || hasSub [36] s

/-- `WHITELIST` from `src/main.py`. -/
def WHITELIST : List PyStr :=
  [str "btc", str "bitcoin", str "crypto", str "cryptocurrency",
   str "gold", str "silver",
   str "price", str "prices", str "high prices", str "cost of living",
   str "inflation", str "cpi", str "ppi",
   str "employment", str "jobs", str "job market", str "unemployment",
   str "wages", str "salary", str "salaries", str "pay", str "pay growth",
   str "labour market",
   str "universal credit", str "benefits", str "pension", str "pensions",
   str "state pension", str "triple lock",
   str "disability benefits", str "housing benefit",
   str "bond", str "bonds", str "gilts", str "yield", str "yields", str "gilt yields",
   str "ftse", str "ftse 100", str "ftse 250",
   str "stocks", str "equities", str "shares",
   str "sterling", str "gbp", str "pound", str "exchange rate",
   str "interest rate", str "interest rates",
   str "bank of england", str "boe",
   str "budget", str "spring budget", str "autumn statement",
   str "tax", str "tax cut", str "tax rise",
   str "hm treasury", str "hmrc",
   str "energy", str "energy bills", str "energy cap",
   str "gas prices", str "electricity prices",
   str "ofgem", str "utilities",
   str "mortgage", str "mortgages", str "housing",
   str "house prices", str "rent", str "rents",
   str "landlord", str "renters",
   str "leasehold", str "freehold",
   str "rightmove", str "zoopla",
   str "consultation", str "white paper", str "green paper",
   str "regulation", str "regulator",
   str "policy", str "reform", str "bill", str "law",
   str "immigration", str "asylum",
   str "small boats", str "boat crossings", str "boats",
   str "border", str "home office",
   str "greenland", str "war", str "conflict",
   str "sanctions", str "nato", str "defence",
   str "national security",
   str "mi5", str "gchq",
   str "strike", str "strikes",
   str "rail strike", str "train strike",
   str "junior doctors", str "nurses",
   str "nhs", str "waiting times",
   str "rail", str "trains", str "tfl", str "hs2",
   str "election", str "polls",
   str "labour", str "conservative", str "reform uk",
   str "prime minister", str "downing street",
   str "parliament", str "westminster",
   str "bp", str "shell", str "hsbc", str "barclays", str "lloyds",
   str "tesco", str "sainsbury", str "vodafone",
   str "bt", str "rolls-royce"]

/-- `BLACKLIST` from `src/main.py`. -/
def BLACKLIST : List PyStr :=
  [str "tumour", str "tumor", str "teenage", str "brain", str "inoperable", str "cancer",
   str "missing", str "abduction", str "kidnapped", str "kidnap",
   str "injured", str "injuries", str "dead", str "died", str "killed", str "murder",
   str "rape",
   str "police said", str "police say", str "arrested", str "shooting", str "stabbing",
   str "church",
   str "denied reports",
   str "mass abduction", str "gunman", str "militants"]

/-- `UK_HINTS` from `src/main.py`. -/
def UK_HINTS : List PyStr :=
  [str "uk", str "britain", str "british", str "england", str "scotland", str "wales",
   str "northern ireland",
   str "london", str "westminster", str "downing street", str "hmrc", str "ons",
   str "bank of england",
   str "sterling", str "gbp", str "pound"]

/-- `HIGH_SIGNAL_SOURCES` from `src/main.py`. -/
def HIGH_SIGNAL_SOURCES : List PyStr :=
  [str "office for national statistics",
   str "bank of england",
   str "gov.uk",
   str "institute for fiscal studies",
   str "resolution foundation",
   str "bbc news - uk",
   str "bbc news - business",
   str "sky news - uk",
   str "the guardian"]

/-- The `macro_triggers` list defined inside `impact_score` in `src/main.py`. -/
def macroTriggers : List PyStr :=
  [str "cpi", str "ppi", str "inflation", str "unemployment", str "wages",
   str "bank of england", str "boe", str "gdp", str "pmi", str "budget", str "mortgage"]

/-- `NewsItem` from `src/main.py` (the `source` of a parsed item is always a
string; a missing `pubDate` is `none`; times are integer minutes). -/
structure NewsItem where
  title : PyStr
  link : PyStr
  source : PyStr
  published : Option Int
deriving DecidableEq

/-- `compute_hash` from `src/main.py`:
`sha256(normalize_text(title) + "|" + link.strip())`, with SHA-256 modelled
as the injective identity on its pre-image (code point 124 is `|`). -/
def compute_hash (title link : PyStr) : PyStr :=
  normalize_text title ++ 124 :: stripStr link

/-- One row of the `news_items` table. -/
structure StoredRec where
  hash : PyStr
  title : PyStr
  link : PyStr
  createdAt : Int
deriving DecidableEq

/-- The exact-key lookup `SELECT 1 FROM news_items WHERE hash = ?`. -/
def keyInStore (recs : List StoredRec) (h : PyStr) : Bool :=
  recs.any (fun r => r.hash == h)

/-- `FUZZY_LOOKBACK_MINUTES` from `src/main.py`. -/
def FUZZY_LOOKBACK_MINUTES : Int := 180

/-- `is_duplicate` from `src/main.py`.  `sim` stands for
`SequenceMatcher(None, a, b).ratio()` (Python standard library), kept as a
parameter; `simThreshold` is the configured `SIM_THRESHOLD`. -/
def is_duplicate (sim : PyStr → PyStr → ℚ) (simThreshold : ℚ) (now : Int)
    (recs : List StoredRec) (item : NewsItem) : Bool :=
  let h := compute_hash item.title item.link
  if keyInStore recs h then true
  else
    let cutoff := now - FUZZY_LOOKBACK_MINUTES
    let recents := (recs.filter (fun r => decide (cutoff ≤ r.createdAt))).map
      (fun r => r.title)
    let newNorm := normalize_text item.title
    recents.any (fun t =>
      decide (simThreshold ≤ sim newNorm (normalize_text t)))

/-- `store_item` from `src/main.py`.  `avail` models whether the store is
reachable; the underlying `INSERT` raises on an unavailable store and on a
`UNIQUE` violation of an existing hash, and the bare `except Exception: pass`
swallows both, so the returned error flag (would the caller see an error?)
is `false` on every path. -/
def store_item (avail : Bool) (now : Int) (recs : List StoredRec)
    (item : NewsItem) : List StoredRec × Bool :=
  let h := compute_hash item.title item.link
  if avail = false then (recs, false)
  else if keyInStore recs h then (recs, false)
  else (recs ++ [⟨h, item.title, item.link, now⟩], false)

/-- `impact_score` from `src/main.py`, written as the source's sequence of
conditional accumulator updates.  Every increment in the source is a whole
number, so the float accumulator only ever holds integral values, all
exactly representable: `Int` is an exact embedding of its value. -/
def impact_score (item : NewsItem) : Int :=
  let title := lowerStr item.title
  let source := lowerStr item.source
  let full := title ++ 32 :: source
  let score : Int := 0
  let score := if text_contains_any full BLACKLIST then score - 3 else score
  let score := if text_contains_any full WHITELIST then score + 2 else score
  let score := if text_contains_any full UK_HINTS then score + 1 else score
  let score := if has_numbers item.title then score + 1 else score
  let score := if HIGH_SIGNAL_SOURCES.any (fun s => hasSub s source) then score + 1
    else score
  let score := if text_contains_any full macroTriggers then score + 1 else score
  score

/-- `should_publish` from `src/main.py`; `impactThreshold` is the configured
`IMPACT_THRESHOLD` (a float in the source, so an arbitrary rational here,
compared against the always-integral score). -/
def should_publish (impactThreshold : ℚ) (item : NewsItem) :
    Bool × Int × PyStr :=
  let full := lowerStr (item.title ++ 32 :: item.source)
  let bl := text_contains_any full BLACKLIST
  let wl := text_contains_any full WHITELIST
  let score := impact_score item
  if bl = true ∧ wl = false ∧ (score : ℚ) < impactThreshold then
    (false, score, str "blacklist")
  else if wl = false ∧ (score : ℚ) < impactThreshold then
    (false, score, str "low_impact")
  else (true, score, str "ok")

/-- What `process_news_cycle` does with one item, as observed by the store
and the delivery channel. -/
inductive ItemOutcome where
  | skippedEmpty
  | skippedDup
  | skippedBoot
  | skippedReject (score : Int) (reason : PyStr)
  | posted (score : Int)
deriving DecidableEq

/-- Whether an outcome delivered a message to the channel. -/
def outcomeDelivered : ItemOutcome → Bool
  | .posted _ => true
  | _ => false

/-- The gate-and-deliver tail of the per-item body of `process_news_cycle`
(everything after the dedup and boot-lockout checks). -/
def gate_step (impactThreshold : ℚ) (now : Int) (recs : List StoredRec)
    (item : NewsItem) : List StoredRec × ItemOutcome :=
  let r := should_publish impactThreshold item
  if r.1 = true then ((store_item true now recs item).1, .posted r.2.1)
  else ((store_item true now recs item).1, .skippedReject r.2.1 r.2.2)

/-- The per-item body of `process_news_cycle` from `src/main.py`:
empty-field skip, dedup check (no store mutation on a hit), boot lockout
(store, no delivery), then the publish gate.  `bootCutoff` is
`BOT_STARTED_AT - BOOT_LOOKBACK_MINUTES`. -/
def process_item (sim : PyStr → PyStr → ℚ) (simThreshold impactThreshold : ℚ)
    (bootCutoff now : Int) (recs : List StoredRec) (item : NewsItem) :
    List StoredRec × ItemOutcome :=
  if item.title = [] ∨ item.link = [] then (recs, .skippedEmpty)
  else if is_duplicate sim simThreshold now recs item then (recs, .skippedDup)
  else
    match item.published with
    | some t =>
      if t < bootCutoff then ((store_item true now recs item).1, .skippedBoot)
      else gate_step impactThreshold now recs item
    | none => gate_step impactThreshold now recs item

/-- Topical categories; the spec's closed enumeration
\{BREAKING, MACRO, SPORTS\}. -/
inductive Category where
  | breaking
  | macroNews
  | sports
deriving DecidableEq

/-- Modelled from the spec: the repository's single source file contains no
Classifier; section 4.5 defines `classify(item) -> Category`, first match
wins: sports keyword gives SPORTS; else a macro/economic keyword with
neither a politics nor a celebrity keyword gives MACRO; else BREAKING. -/
def classify (sportsKw macroKw politicsKw celebKw : List PyStr)
    (item : NewsItem) : Category :=
  let text := lowerStr (item.title ++ 32 :: item.source)
  if text_contains_any text sportsKw then .sports
  else if text_contains_any text macroKw = true ∧
      text_contains_any text politicsKw = false ∧
      text_contains_any text celebKw = false then .macroNews
  else .breaking

/-- The outcome of one `bot.send_message` attempt inside
`send_message_with_retry` from `src/main.py`. -/
inductive SendEvent where
  | ok
  | rateLimited (delay : Nat)
  | transientErr
  | otherErr
deriving DecidableEq

/-- Whether an attempt outcome leaves the retry loop (`break`): a successful
send or an unexpected exception; `RetryAfter` and `TimedOut`/`NetworkError`
both sleep and retry. -/
def eventTerminal : SendEvent → Bool
  | .ok => true
  | .otherErr => true
  | _ => false

/-- Seconds slept before the next attempt, per the handlers in
`send_message_with_retry`: the server-specified `retry_after` on a rate
limit, a fixed 5 seconds on a transient network error. -/
def retryDelay : SendEvent → Nat
  | .rateLimited d => d
  | .transientErr => 5
  | _ => 0

/-- The `while True` retry loop of `send_message_with_retry` from
`src/main.py`, run against a stream `ev` of attempt outcomes with `fuel`
loop iterations observed: `some e` means the loop exited within `fuel`
iterations with terminal outcome `e`; `none` means it was still looping. -/
def send_message_with_retry (ev : Nat → SendEvent) : Nat → Option SendEvent
  | 0 => none
  | fuel + 1 =>
    if eventTerminal (ev 0) then some (ev 0)
    else send_message_with_retry (fun i => ev (i + 1)) fuel

/-- The stream of attempt outcomes in which every attempt fails with a
transient network error. -/
def allTransient : Nat → SendEvent := fun _ => .transientErr

/-- A retry loop that never exits, whatever the fuel. -/
def neverCompletes (ev : Nat → SendEvent) : Prop :=
  ∀ fuel, send_message_with_retry ev fuel = none

/-- A concrete stand-in for `SequenceMatcher.ratio` used in closed
instantiations: ratio 1 on equal strings, 0 otherwise. -/
def simExact : PyStr → PyStr → ℚ := fun a b => if a == b then 1 else 0

/-- A stored record for the headline `Rates rise` under link `l1`. -/
def recA : StoredRec :=
  ⟨compute_hash (str "Rates rise") (str "l1"), str "Rates rise", str "l1", 0⟩

/-- An incoming item with the same headline up to normalization, but a
different link (so a different exact key), and no publication timestamp. -/
def itemB : NewsItem := ⟨str "Rates  Rise", str "l2", str "", none⟩

/-- Like `itemB` but carrying an old publication timestamp. -/
def itemOldB : NewsItem := ⟨str "Rates  Rise", str "l2", str "", some (-50)⟩

/-- A blacklisted human-interest item with no whitelist hit (score −3). -/
def itemPolice : NewsItem :=
  ⟨str "Police say missing teenager found", str "l", str "Sky News", none⟩

/-- An item hitting no keyword set at all (score 0). -/
def itemQuiet : NewsItem := ⟨str "Sunny afternoon", str "l", str "", none⟩

/-- A whitelisted macro item. -/
def itemBudget : NewsItem := ⟨str "Budget day", str "l", str "", none⟩

/-- A novel high-scoring item with an old publication timestamp. -/
def itemOldNovel : NewsItem :=
  ⟨str "Bank of England raises interest rates to 5.25%", str "l9",
    str "BBC News - Business", some (-50)⟩

/-- The stored record produced by `itemB` itself (its exact key present). -/
def recB : StoredRec :=
  ⟨compute_hash itemB.title itemB.link, itemB.title, itemB.link, 0⟩

-- ===================================================================
-- Theorems
-- ===================================================================

theorem splitWSAux_congr : ∀ n m (s : PyStr), s.length ≤ n → s.length ≤ m →
    splitWSAux n s = splitWSAux m s := by
  intro n
  induction n with
  | zero =>
    intro m s hn _
    have hs : s = [] := List.length_eq_zero.mp (Nat.le_zero.mp hn)
    subst hs
    cases m <;> rfl
  | succ n ih =>
    intro m s hn hm
    match s, m with
    | [], m => cases m <;> rfl
    | c :: cs, 0 => simp at hm
    | c :: cs, m + 1 =>
      simp only [List.length_cons, Nat.succ_le_succ_iff] at hn hm
      by_cases hc : isSpace c = true
      · simp only [splitWSAux, hc, if_true]
        exact ih m cs hn hm
      · simp only [splitWSAux, hc, if_false, Bool.false_eq_true]
        have hd : (cs.dropWhile notSpace).length ≤ cs.length :=
          (List.dropWhile_sublist _).length_le
        rw [ih m _ (le_trans hd hn) (le_trans hd hm)]

theorem splitWS_cons_space {c : Nat} {cs : PyStr} (hc : isSpace c = true) :
    splitWS (c :: cs) = splitWS cs := by
  simp [splitWS, splitWSAux, hc]

theorem splitWS_cons_word {c : Nat} {cs : PyStr} (hc : isSpace c = false) :
    splitWS (c :: cs) =
      (c :: cs.takeWhile notSpace) :: splitWS (cs.dropWhile notSpace) := by
  simp only [splitWS, List.length_cons, splitWSAux, hc, Bool.false_eq_true,
    if_false]
  rw [splitWSAux_congr _ _ _ ((List.dropWhile_sublist _).length_le) le_rfl]

/-- C4: the impact score is the sum of six independent additive
contributions determined solely by the item's title and source and the
configured keyword sets: −3 for a blacklist hit, +2 for a whitelist hit,
+1 for a UK hint, +1 for a numeric/currency/percentage pattern in the
title, +1 for a high-signal source, +1 for a macro trigger; and the
function is deterministic given the same title and source. -/
theorem impact_score_additive (item : NewsItem) :
    (impact_score item =
      (if text_contains_any (lowerStr item.title ++ 32 :: lowerStr item.source)
          BLACKLIST then (-3 : Int) else 0)
      + (if text_contains_any (lowerStr item.title ++ 32 :: lowerStr item.source)
          WHITELIST then (2 : Int) else 0)
      + (if text_contains_any (lowerStr item.title ++ 32 :: lowerStr item.source)
          UK_HINTS then (1 : Int) else 0)
      + (if has_numbers item.title then (1 : Int) else 0)
      + (if HIGH_SIGNAL_SOURCES.any (fun s => hasSub s (lowerStr item.source))
          then (1 : Int) else 0)
      + (if text_contains_any (lowerStr item.title ++ 32 :: lowerStr item.source)
          macroTriggers then (1 : Int) else 0))
    ∧ ∀ j : NewsItem, item.title = j.title → item.source = j.source →
        impact_score item = impact_score j := by
  constructor
  · simp only [impact_score]
    split_ifs <;> ring
  · intro j h1 h2
    cases item
    cases j
    simp only at h1 h2
    subst h1
    subst h2
    rfl

/-- Witness for C4 at a concrete item: the score decomposes as stated and
is unchanged when only the link and timestamp differ. -/
theorem impact_score_additive_witness :
    impact_score ⟨str "Inflation hits 4%", str "x", str "BBC News - UK", none⟩ =
      impact_score ⟨str "Inflation hits 4%", str "y", str "BBC News - UK", some 5⟩ :=
  (impact_score_additive
    ⟨str "Inflation hits 4%", str "x", str "BBC News - UK", none⟩).2
    ⟨str "Inflation hits 4%", str "y", str "BBC News - UK", some 5⟩ rfl rfl

/-- C10: any whitelist hit in the lowercased title-plus-source text forces
acceptance with reason `ok`, even with a blacklist hit and a score below
the threshold. -/
theorem whitelist_forces_accept (impactThreshold : ℚ) (item : NewsItem)
    (hwl : text_contains_any (lowerStr (item.title ++ 32 :: item.source))
      WHITELIST = true) :
    should_publish impactThreshold item = (true, impact_score item, str "ok") := by
  simp [should_publish, hwl]

/-- Witness for C10: a blacklisted, negatively scored item with a whitelist
hit is still accepted with reason `ok`. -/
theorem whitelist_forces_accept_witness :
    text_contains_any
      (lowerStr (str "Murder trial hits NHS" ++ 32 :: str "")) BLACKLIST = true
    ∧ impact_score ⟨str "Murder trial hits NHS", str "l", str "", none⟩ < 3
    ∧ should_publish 3 ⟨str "Murder trial hits NHS", str "l", str "", none⟩ =
        (true, impact_score ⟨str "Murder trial hits NHS", str "l", str "", none⟩,
          str "ok") :=
  ⟨by decide, by decide,
    whitelist_forces_accept 3 ⟨str "Murder trial hits NHS", str "l", str "", none⟩
      (by decide)⟩

/-- C3: `should_publish` rejects with reason `blacklist` on a blacklist hit
with no whitelist hit and a score below threshold; rejects with reason
`low_impact` when additionally no blacklist hit fires but the whitelist
still misses and the score is below threshold; accepts with reason `ok` in
every other case; and the orchestrator records a rejected item in the store
without delivering it. -/
theorem publish_gate_cases (impactThreshold : ℚ) (sim : PyStr → PyStr → ℚ)
    (simThreshold : ℚ) (bootCutoff now : Int) (recs : List StoredRec)
    (item : NewsItem) :
    (text_contains_any (lowerStr (item.title ++ 32 :: item.source))
        BLACKLIST = true →
     text_contains_any (lowerStr (item.title ++ 32 :: item.source))
        WHITELIST = false →
     ((impact_score item : ℚ) < impactThreshold) →
     should_publish impactThreshold item =
        (false, impact_score item, str "blacklist"))
    ∧ (text_contains_any (lowerStr (item.title ++ 32 :: item.source))
        BLACKLIST = false →
      text_contains_any (lowerStr (item.title ++ 32 :: item.source))
        WHITELIST = false →
      ((impact_score item : ℚ) < impactThreshold) →
      should_publish impactThreshold item =
        (false, impact_score item, str "low_impact"))
    ∧ (text_contains_any (lowerStr (item.title ++ 32 :: item.source))
        WHITELIST = true ∨ impactThreshold ≤ (impact_score item : ℚ) →
      should_publish impactThreshold item = (true, impact_score item, str "ok"))
    ∧ (item.title ≠ [] → item.link ≠ [] →
      is_duplicate sim simThreshold now recs item = false →
      (∀ t, item.published = some t → ¬ t < bootCutoff) →
      (should_publish impactThreshold item).1 = false →
      process_item sim simThreshold impactThreshold bootCutoff now recs item =
        ((store_item true now recs item).1,
          .skippedReject (should_publish impactThreshold item).2.1
            (should_publish impactThreshold item).2.2)
        ∧ outcomeDelivered
            (process_item sim simThreshold impactThreshold bootCutoff now recs
              item).2 = false) := by
  refine ⟨?_, ?_, ?_, ?_⟩
  · intro hb hw hs
    simp [should_publish, hb, hw, hs]
  · intro hb hw hs
    simp [should_publish, hb, hw, hs]
  · intro h
    rcases h with hw | hs
    · simp [should_publish, hw]
    · simp [should_publish, not_lt.mpr hs]
  · intro ht hl hdup hboot hrej
    have hne : ¬(item.title = [] ∨ item.link = []) := by simp [ht, hl]
    have hmain : process_item sim simThreshold impactThreshold bootCutoff now
        recs item =
        ((store_item true now recs item).1,
          .skippedReject (should_publish impactThreshold item).2.1
            (should_publish impactThreshold item).2.2) := by
      rcases hp : item.published with _ | t
      · simp only [process_item, if_neg hne, hdup, Bool.false_eq_true,
          if_false, hp, gate_step]
        simp [hrej]
      · simp only [process_item, if_neg hne, hdup, Bool.false_eq_true,
          if_false, hp, if_neg (hboot t hp), gate_step]
        simp [hrej]
    refine ⟨hmain, ?_⟩
    rw [hmain]
    simp [outcomeDelivered]

/-- Witness for C3 at concrete items: a blacklist rejection, a low-impact
rejection, a whitelist acceptance, and a rejected item being stored and not
delivered. -/
theorem publish_gate_cases_witness :
    should_publish 3 itemPolice = (false, -3, str "blacklist")
    ∧ should_publish 3 itemQuiet = (false, 0, str "low_impact")
    ∧ should_publish 3 itemBudget = (true, 3, str "ok")
    ∧ process_item simExact 1 3 (-1000) 0 [] itemPolice =
        ((store_item true 0 [] itemPolice).1, .skippedReject (-3) (str "blacklist")) := by
  refine ⟨?_, ?_, ?_, ?_⟩
  · exact ((publish_gate_cases 3 simExact 1 (-1000) 0 [] itemPolice).1
      (by decide) (by decide) (by decide)).trans (by decide)
  · exact ((publish_gate_cases 3 simExact 1 (-1000) 0 [] itemQuiet).2.1
      (by decide) (by decide) (by decide)).trans (by decide)
  · exact ((publish_gate_cases 3 simExact 1 (-1000) 0 [] itemBudget).2.2.1
      (Or.inl (by decide))).trans (by decide)
  · exact (((publish_gate_cases 3 simExact 1 (-1000) 0 [] itemPolice).2.2.2
      (by decide) (by decide) (by decide) (fun t h => nomatch h)
      (by decide)).1).trans (by decide)

/-- C2: the duplicate detector reports a duplicate iff the item's key is
already stored (in which case the verdict does not depend on the similarity
function at all), or some stored title in the trailing lookback window has
similarity ratio at or above the threshold; when the key is absent and
every recent title is strictly below the threshold, the item passes. -/
theorem is_duplicate_two_tier (sim : PyStr → PyStr → ℚ) (simThreshold : ℚ)
    (now : Int) (recs : List StoredRec) (item : NewsItem) :
    (is_duplicate sim simThreshold now recs item = true ↔
      keyInStore recs (compute_hash item.title item.link) = true ∨
      ∃ r ∈ recs, now - FUZZY_LOOKBACK_MINUTES ≤ r.createdAt ∧
        simThreshold ≤ sim (normalize_text item.title) (normalize_text r.title))
    ∧ (keyInStore recs (compute_hash item.title item.link) = true →
      ∀ sim2 : PyStr → PyStr → ℚ,
        is_duplicate sim2 simThreshold now recs item = true)
    ∧ (keyInStore recs (compute_hash item.title item.link) = false →
      (∀ r ∈ recs, now - FUZZY_LOOKBACK_MINUTES ≤ r.createdAt →
        sim (normalize_text item.title) (normalize_text r.title) < simThreshold) →
      is_duplicate sim simThreshold now recs item = false) := by
  refine ⟨?_, ?_, ?_⟩
  · by_cases hk : keyInStore recs (compute_hash item.title item.link) = true
    · simp [is_duplicate, hk]
    · simp only [Bool.not_eq_true] at hk
      simp only [is_duplicate, hk, Bool.false_eq_true, if_false,
        List.any_eq_true, List.mem_map, List.mem_filter, decide_eq_true_eq]
      constructor
      · rintro ⟨t, ⟨r, ⟨hr, hcut⟩, rfl⟩, hle⟩
        exact Or.inr ⟨r, hr, hcut, hle⟩
      · rintro (h | ⟨r, hr, hcut, hle⟩)
        · simp [hk] at h
        · exact ⟨r.title, ⟨r, ⟨hr, by simpa using hcut⟩, rfl⟩, hle⟩
  · intro hk sim2
    simp [is_duplicate, hk]
  · intro hk hall
    simp only [is_duplicate, hk, Bool.false_eq_true, if_false,
      List.any_eq_false, List.mem_map, List.mem_filter]
    rintro t ⟨r, ⟨hr, hcut⟩, rfl⟩
    simp only [decide_eq_true_eq]
    exact not_le.mpr (hall r hr (by simpa using hcut))

/-- Witness for C2: a same-headline different-link item is caught by the
fuzzy tier against a stored record in the window; with an empty store it
passes dedup. -/
theorem is_duplicate_two_tier_witness :
    is_duplicate simExact 1 10 [recA] itemB = true
    ∧ is_duplicate simExact 1 10 [] itemB = false :=
  ⟨(is_duplicate_two_tier simExact 1 10 [recA] itemB).1.mpr
      (Or.inr ⟨recA, by decide, by decide, by decide⟩),
   (is_duplicate_two_tier simExact 1 10 [] itemB).2.2 (by decide)
      (fun r hr => absurd hr (List.not_mem_nil r))⟩

/-- C8 counterexample: with the store unavailable, `store_item` swallows
the failure — the returned error flag is `false`, nothing is surfaced to
the cycle — refuting the claim that a store-unavailable insert is surfaced
as a fatal-for-the-cycle error. -/
theorem store_unavailable_swallowed :
    store_item false 0 [] itemB = ([], false)
    ∧ ¬ (store_item false 0 [] itemB).2 = true := by decide

/-- C8 amended: inserting an existing key leaves the store unchanged and
surfaces no error (idempotent no-op), and a store-unavailable insert is
likewise silently swallowed: the state is unchanged and no error reaches
the caller. -/
theorem store_item_swallows_everything (now : Int) (recs : List StoredRec)
    (item : NewsItem)
    (hk : keyInStore recs (compute_hash item.title item.link) = true) :
    store_item true now recs item = (recs, false)
    ∧ store_item false now recs item = (recs, false) := by
  constructor
  · simp [store_item, hk]
  · simp [store_item]

/-- Witness for C8 amended: re-inserting `itemB` over its own record is a
no-op, and an unavailable-store insert leaves the same store untouched. -/
theorem store_item_swallows_everything_witness :
    store_item true 5 [recB] itemB = ([recB], false)
    ∧ store_item false 5 [recB] itemB = ([recB], false) :=
  store_item_swallows_everything 5 [recB] itemB (by decide)

/-- C7 counterexample: when every attempt fails with a transient network
error, the retry loop (`while True` with `TimedOut`/`NetworkError`
handlers that sleep and continue) never exits, whatever the number of
iterations observed — transient errors are not retried a bounded number of
times, and delivery does not terminate under persistent transient
failures. -/
theorem retry_unbounded_on_transient : neverCompletes allTransient := by
  intro fuel
  induction fuel with
  | zero => rfl
  | succ n ih =>
    simp only [send_message_with_retry, allTransient, eventTerminal,
      Bool.false_eq_true, if_false]
    exact ih

theorem sendRetry_exits_of_terminal : ∀ (n : Nat) (ev : Nat → SendEvent),
    eventTerminal (ev n) = true →
    ∃ fuel e, send_message_with_retry ev fuel = some e := by
  intro n
  induction n with
  | zero =>
    intro ev h
    exact ⟨1, ev 0, by simp [send_message_with_retry, h]⟩
  | succ n ih =>
    intro ev h
    by_cases h0 : eventTerminal (ev 0) = true
    · exact ⟨1, ev 0, by simp [send_message_with_retry, h0]⟩
    · simp only [Bool.not_eq_true] at h0
      obtain ⟨fuel, e, he⟩ := ih (fun i => ev (i + 1)) h
      refine ⟨fuel + 1, e, ?_⟩
      simp only [send_message_with_retry, h0, Bool.false_eq_true, if_false]
      exact he

theorem sendRetry_terminal_of_exit : ∀ (fuel : Nat) (ev : Nat → SendEvent)
    (e : SendEvent), send_message_with_retry ev fuel = some e →
    ∃ n, eventTerminal (ev n) = true := by
  intro fuel
  induction fuel with
  | zero =>
    intro ev e h
    simp [send_message_with_retry] at h
  | succ n ih =>
    intro ev e h
    by_cases h0 : eventTerminal (ev 0) = true
    · exact ⟨0, h0⟩
    · simp only [Bool.not_eq_true] at h0
      simp only [send_message_with_retry, h0, Bool.false_eq_true,
        if_false] at h
      obtain ⟨m, hm⟩ := ih _ _ h
      exact ⟨m + 1, hm⟩

/-- C7 amended: the retry loop exits iff some attempt succeeds or raises a
non-transient error; a rate-limit signal is always retried after the
server-specified delay and a transient network error after a fixed 5
second backoff, both without any bound on the number of retries, so the
delivery of a single message does not terminate while transient failures
persist. -/
theorem send_retry_characterization (ev : Nat → SendEvent) :
    ((∃ n, eventTerminal (ev n) = true) ↔
      ∃ fuel e, send_message_with_retry ev fuel = some e)
    ∧ (∀ d, retryDelay (.rateLimited d) = d)
    ∧ retryDelay .transientErr = 5
    ∧ (∀ fuel, eventTerminal (ev 0) = false →
      send_message_with_retry ev (fuel + 1) =
        send_message_with_retry (fun i => ev (i + 1)) fuel) := by
  refine ⟨⟨?_, ?_⟩, fun d => rfl, rfl, ?_⟩
  · rintro ⟨n, hn⟩
    exact sendRetry_exits_of_terminal n ev hn
  · rintro ⟨fuel, e, he⟩
    exact sendRetry_terminal_of_exit fuel ev e he
  · intro fuel h0
    simp only [send_message_with_retry, h0, Bool.false_eq_true, if_false]

/-- Witness for C7 amended: a first-attempt success exits the loop, and a
rate-limit delay of 7 is honoured as 7. -/
theorem send_retry_characterization_witness :
    (∃ fuel e, send_message_with_retry (fun _ => SendEvent.ok) fuel = some e)
    ∧ retryDelay (.rateLimited 7) = 7 :=
  ⟨(send_retry_characterization (fun _ => SendEvent.ok)).1.mp ⟨0, rfl⟩,
   (send_retry_characterization (fun _ => SendEvent.ok)).2.1 7⟩

/-- C6 (classifier modelled from the spec, section 4.5): `classify` always
returns one of the three categories, any sports hit wins outright, a macro
hit accompanied by a politics or celebrity hit (and no sports hit) falls
to BREAKING rather than MACRO, and an item hitting neither the sports nor
the macro set is BREAKING — no item is unclassified. -/
theorem classify_total_and_priority
    (sportsKw macroKw politicsKw celebKw : List PyStr) (item : NewsItem) :
    (classify sportsKw macroKw politicsKw celebKw item = .breaking ∨
     classify sportsKw macroKw politicsKw celebKw item = .macroNews ∨
     classify sportsKw macroKw politicsKw celebKw item = .sports)
    ∧ (text_contains_any (lowerStr (item.title ++ 32 :: item.source))
        sportsKw = true →
      classify sportsKw macroKw politicsKw celebKw item = .sports)
    ∧ (text_contains_any (lowerStr (item.title ++ 32 :: item.source))
        sportsKw = false →
      text_contains_any (lowerStr (item.title ++ 32 :: item.source))
        macroKw = true →
      (text_contains_any (lowerStr (item.title ++ 32 :: item.source))
          politicsKw = true ∨
        text_contains_any (lowerStr (item.title ++ 32 :: item.source))
          celebKw = true) →
      classify sportsKw macroKw politicsKw celebKw item = .breaking)
    ∧ (text_contains_any (lowerStr (item.title ++ 32 :: item.source))
        sportsKw = false →
      text_contains_any (lowerStr (item.title ++ 32 :: item.source))
        macroKw = false →
      classify sportsKw macroKw politicsKw celebKw item = .breaking) := by
  refine ⟨?_, ?_, ?_, ?_⟩
  · simp only [classify]
    split_ifs <;> simp
  · intro h
    simp [classify, h]
  · intro hs hm hpc
    rcases hpc with hp | hc
    · simp [classify, hs, hp]
    · simp [classify, hs, hc]
  · intro hs hm
    simp [classify, hs, hm]

/-- Witness for C6: with concrete keyword sets, a sports-and-macro item is
SPORTS, a macro-and-politics item is BREAKING, and a no-keyword item is
BREAKING. -/
theorem classify_total_and_priority_witness :
    classify [str "football"] [str "inflation"] [str "minister"]
      [str "celebrity"] ⟨str "Football inflation soars", str "l", str "", none⟩
      = .sports
    ∧ classify [str "football"] [str "inflation"] [str "minister"]
      [str "celebrity"] ⟨str "Minister on inflation", str "l", str "", none⟩
      = .breaking
    ∧ classify [str "football"] [str "inflation"] [str "minister"]
      [str "celebrity"] ⟨str "Sunny afternoon", str "l", str "", none⟩
      = .breaking :=
  ⟨(classify_total_and_priority [str "football"] [str "inflation"]
      [str "minister"] [str "celebrity"]
      ⟨str "Football inflation soars", str "l", str "", none⟩).2.1 (by decide),
   (classify_total_and_priority [str "football"] [str "inflation"]
      [str "minister"] [str "celebrity"]
      ⟨str "Minister on inflation", str "l", str "", none⟩).2.2.1
      (by decide) (by decide) (Or.inl (by decide)),
   (classify_total_and_priority [str "football"] [str "inflation"]
      [str "minister"] [str "celebrity"]
      ⟨str "Sunny afternoon", str "l", str "", none⟩).2.2.2
      (by decide) (by decide)⟩

/-- C1 counterexample: `itemB` passes the exact-key check (its key is
absent) and is a fuzzy duplicate of the stored `recA` (ratio 1 at or above
threshold 1), yet the cycle leaves the store unchanged and the item's key
is still absent afterwards — the fuzzy duplicate is suppressed but NOT
recorded, refuting the claim. -/
theorem fuzzy_dup_not_recorded :
    keyInStore [recA] (compute_hash itemB.title itemB.link) = false
    ∧ is_duplicate simExact 1 0 [recA] itemB = true
    ∧ process_item simExact 1 3 (-1000) 0 [recA] itemB = ([recA], .skippedDup)
    ∧ keyInStore (process_item simExact 1 3 (-1000) 0 [recA] itemB).1
        (compute_hash itemB.title itemB.link) = false := by decide

/-- C1 amended: an item the duplicate detector flags (exact or fuzzy) is
never delivered, and the store is left exactly as it was — a fuzzy
duplicate is not re-recorded; it keeps matching only while the originally
stored title stays inside the fuzzy lookback window. -/
theorem dup_skip_leaves_store_unchanged (sim : PyStr → PyStr → ℚ)
    (simThreshold impactThreshold : ℚ) (bootCutoff now : Int)
    (recs : List StoredRec) (item : NewsItem)
    (hne : ¬(item.title = [] ∨ item.link = []))
    (hdup : is_duplicate sim simThreshold now recs item = true) :
    process_item sim simThreshold impactThreshold bootCutoff now recs item =
      (recs, .skippedDup)
    ∧ outcomeDelivered
        (process_item sim simThreshold impactThreshold bootCutoff now recs
          item).2 = false := by
  have h : process_item sim simThreshold impactThreshold bootCutoff now recs
      item = (recs, .skippedDup) := by
    simp [process_item, hne, hdup]
  exact ⟨h, by rw [h]; rfl⟩

/-- Witness for C1 amended: the fuzzy duplicate `itemB` is skipped with the
store unchanged. -/
theorem dup_skip_leaves_store_unchanged_witness :
    process_item simExact 1 3 (-1000) 5 [recA] itemB = ([recA], .skippedDup) :=
  (dup_skip_leaves_store_unchanged simExact 1 3 (-1000) 5 [recA] itemB
    (by decide) (by decide)).1

/-- C5 counterexample: `itemOldB` is published at −50, older than the boot
cutoff 0, and is never delivered — but because it is a fuzzy duplicate it
is skipped at the dedup stage with no store mutation, so it is NOT
recorded as seen, refuting the claim that every old item is recorded. -/
theorem old_dup_not_recorded :
    itemOldB.published = some (-50)
    ∧ ((-50 : Int) < 0)
    ∧ process_item simExact 1 3 0 10 [recA] itemOldB = ([recA], .skippedDup)
    ∧ keyInStore [recA] (compute_hash itemOldB.title itemOldB.link) = false := by
  decide

/-- C5 amended: an item that passes the empty-field and duplicate checks
and whose publication timestamp is older than the boot cutoff is recorded
as seen (its key is in the store afterwards) and never delivered,
regardless of its score; an item with no publication timestamp falls
through to the normal publish gate; an old item flagged as a duplicate is
skipped at the dedup stage without a new record. -/
theorem boot_lockout_behavior (sim : PyStr → PyStr → ℚ)
    (simThreshold impactThreshold : ℚ) (bootCutoff now : Int)
    (recs : List StoredRec) (item : NewsItem)
    (hne : ¬(item.title = [] ∨ item.link = []))
    (hdup : is_duplicate sim simThreshold now recs item = false) :
    (∀ t, item.published = some t → t < bootCutoff →
      process_item sim simThreshold impactThreshold bootCutoff now recs item =
        ((store_item true now recs item).1, .skippedBoot)
      ∧ keyInStore (store_item true now recs item).1
          (compute_hash item.title item.link) = true
      ∧ outcomeDelivered
          (process_item sim simThreshold impactThreshold bootCutoff now recs
            item).2 = false)
    ∧ (item.published = none →
      process_item sim simThreshold impactThreshold bootCutoff now recs item =
        gate_step impactThreshold now recs item) := by
  have hkey : keyInStore (store_item true now recs item).1
      (compute_hash item.title item.link) = true := by
    by_cases hk : keyInStore recs (compute_hash item.title item.link) = true
    · simp [store_item, hk]
    · simp only [Bool.not_eq_true] at hk
      have happ : store_item true now recs item =
          (recs ++ [⟨compute_hash item.title item.link, item.title, item.link,
            now⟩], false) := by
        simp [store_item, hk]
      rw [happ]
      simp [keyInStore, List.any_append]
  constructor
  · intro t hp ht
    have hmain : process_item sim simThreshold impactThreshold bootCutoff now
        recs item = ((store_item true now recs item).1, .skippedBoot) := by
      simp [process_item, hne, hdup, hp, ht]
    exact ⟨hmain, hkey, by rw [hmain]; rfl⟩
  · intro hp
    simp [process_item, hne, hdup, hp]

/-- Witness for C5 amended: the novel old item is stored and suppressed,
its key is in the store afterwards, and the timestampless `itemB` is routed
to the normal gate. -/
theorem boot_lockout_behavior_witness :
    process_item simExact 1 3 0 10 [] itemOldNovel =
      ((store_item true 10 [] itemOldNovel).1, .skippedBoot)
    ∧ keyInStore (store_item true 10 [] itemOldNovel).1
        (compute_hash itemOldNovel.title itemOldNovel.link) = true
    ∧ process_item simExact 1 3 (-1000) 10 [] itemB = gate_step 3 10 [] itemB :=
  ⟨((boot_lockout_behavior simExact 1 3 0 10 [] itemOldNovel (by decide)
      (by decide)).1 (-50) rfl (by decide)).1,
   ((boot_lockout_behavior simExact 1 3 0 10 [] itemOldNovel (by decide)
      (by decide)).1 (-50) rfl (by decide)).2.1,
   (boot_lockout_behavior simExact 1 3 (-1000) 10 [] itemB (by decide)
      (by decide)).2 rfl⟩

theorem lowerChar_idem (c : Nat) : lowerChar (lowerChar c) = lowerChar c := by
  unfold lowerChar
  split_ifs <;> omega

theorem mem_of_mem_stripStr {c : Nat} {s : PyStr} (h : c ∈ stripStr s) :
    c ∈ s := by
  unfold stripStr at h
  rw [List.mem_reverse] at h
  have h2 : c ∈ (s.dropWhile isSpace).reverse :=
    List.Sublist.mem h (List.dropWhile_sublist _)
  rw [List.mem_reverse] at h2
  exact List.Sublist.mem h2 (List.dropWhile_sublist _)

theorem splitWSAux_words : ∀ (fuel : Nat) (x : PyStr), ∀ w ∈ splitWSAux fuel x,
    w ≠ [] ∧ ∀ c ∈ w, notSpace c = true ∧ c ∈ x := by
  intro fuel
  induction fuel with
  | zero => intro x w hw; simp [splitWSAux] at hw
  | succ n ih =>
    intro x w hw
    match x with
    | [] => simp [splitWSAux] at hw
    | c :: cs =>
      by_cases hc : isSpace c = true
      · simp only [splitWSAux, hc, if_true] at hw
        obtain ⟨hne, hall⟩ := ih cs w hw
        exact ⟨hne, fun d hd =>
          ⟨(hall d hd).1, List.mem_cons_of_mem c (hall d hd).2⟩⟩
      · simp only [Bool.not_eq_true] at hc
        simp only [splitWSAux, hc, Bool.false_eq_true, if_false,
          List.mem_cons] at hw
        rcases hw with rfl | hw
        · refine ⟨by simp, fun d hd => ?_⟩
          rcases List.mem_cons.mp hd with rfl | hd2
          · exact ⟨by simp [notSpace, hc], List.mem_cons_self _ _⟩
          · exact ⟨List.mem_takeWhile_imp hd2,
              List.mem_cons_of_mem c
                (List.Sublist.mem hd2 (List.takeWhile_sublist _))⟩
        · obtain ⟨hne, hall⟩ := ih (cs.dropWhile notSpace) w hw
          exact ⟨hne, fun d hd => ⟨(hall d hd).1,
            List.mem_cons_of_mem c
              (List.Sublist.mem (hall d hd).2 (List.dropWhile_sublist _))⟩⟩

theorem splitWS_words (x : PyStr) : ∀ w ∈ splitWS x,
    w ≠ [] ∧ ∀ c ∈ w, notSpace c = true ∧ c ∈ x :=
  splitWSAux_words x.length x

theorem takeWhile_append_all_space (z a : PyStr)
    (hz : ∀ c ∈ z, isSpace c = true) :
    (a ++ z).takeWhile notSpace = a.takeWhile notSpace := by
  induction a with
  | nil =>
    simp only [List.nil_append, List.takeWhile_nil]
    cases z with
    | nil => rfl
    | cons c cs =>
      have hc := hz c (List.mem_cons_self c cs)
      simp [List.takeWhile_cons, notSpace, hc]
  | cons x a ih =>
    by_cases hx : notSpace x = true
    · simp [List.takeWhile_cons, hx, ih]
    · simp only [Bool.not_eq_true] at hx
      simp [List.takeWhile_cons, hx]

theorem dropWhile_append_all_space (z a : PyStr)
    (hz : ∀ c ∈ z, isSpace c = true) :
    (a ++ z).dropWhile notSpace = a.dropWhile notSpace ++ z := by
  induction a with
  | nil =>
    simp only [List.nil_append, List.dropWhile_nil]
    cases z with
    | nil => rfl
    | cons c cs =>
      have hc := hz c (List.mem_cons_self c cs)
      simp [List.dropWhile_cons, notSpace, hc]
  | cons x a ih =>
    by_cases hx : notSpace x = true
    · simp [List.dropWhile_cons, hx, ih]
    · simp only [Bool.not_eq_true] at hx
      simp [List.dropWhile_cons, hx]

theorem splitWS_all_space : ∀ (s : PyStr), (∀ c ∈ s, isSpace c = true) →
    splitWS s = [] := by
  intro s
  induction s with
  | nil => intro _; rfl
  | cons c cs ih =>
    intro h
    rw [splitWS_cons_space (h c (List.mem_cons_self c cs))]
    exact ih (fun d hd => h d (List.mem_cons_of_mem c hd))

theorem splitWS_append_all_space : ∀ (n : Nat) (y : PyStr), y.length ≤ n →
    ∀ z, (∀ c ∈ z, isSpace c = true) → splitWS (y ++ z) = splitWS y := by
  intro n
  induction n with
  | zero =>
    intro y hy z hz
    have hnil : y = [] := List.length_eq_zero.mp (Nat.le_zero.mp hy)
    subst hnil
    simpa using splitWS_all_space z hz
  | succ n ih =>
    intro y hy z hz
    match y with
    | [] => simpa using splitWS_all_space z hz
    | c :: cs =>
      simp only [List.length_cons, Nat.succ_le_succ_iff] at hy
      by_cases hc : isSpace c = true
      · rw [List.cons_append, splitWS_cons_space hc, splitWS_cons_space hc]
        exact ih cs hy z hz
      · simp only [Bool.not_eq_true] at hc
        rw [List.cons_append, splitWS_cons_word hc, splitWS_cons_word hc,
          takeWhile_append_all_space z cs hz, dropWhile_append_all_space z cs hz]
        rw [ih (cs.dropWhile notSpace)
          (le_trans (List.dropWhile_sublist _).length_le hy) z hz]

theorem splitWS_dropWhile_space : ∀ (s : PyStr),
    splitWS (s.dropWhile isSpace) = splitWS s := by
  intro s
  induction s with
  | nil => rfl
  | cons c cs ih =>
    by_cases hc : isSpace c = true
    · rw [List.dropWhile_cons_of_pos hc, splitWS_cons_space hc]
      exact ih
    · simp only [Bool.not_eq_true] at hc
      rw [List.dropWhile_cons_of_neg (by simp [hc])]

theorem splitWS_stripStr (s : PyStr) : splitWS (stripStr s) = splitWS s := by
  have hdecomp : s.dropWhile isSpace =
      stripStr s ++ ((s.dropWhile isSpace).reverse.takeWhile isSpace).reverse := by
    unfold stripStr
    rw [← List.reverse_append, List.takeWhile_append_dropWhile,
      List.reverse_reverse]
  have hz : ∀ c ∈ ((s.dropWhile isSpace).reverse.takeWhile isSpace).reverse,
      isSpace c = true := by
    intro c hc
    rw [List.mem_reverse] at hc
    exact List.mem_takeWhile_imp hc
  calc splitWS (stripStr s)
      = splitWS (stripStr s ++
          ((s.dropWhile isSpace).reverse.takeWhile isSpace).reverse) :=
        (splitWS_append_all_space (stripStr s).length (stripStr s) le_rfl _
          hz).symm
    _ = splitWS (s.dropWhile isSpace) := by rw [← hdecomp]
    _ = splitWS s := splitWS_dropWhile_space s

theorem mem_joinSpace : ∀ (ws : List PyStr) (c : Nat), c ∈ joinSpace ws →
    c = 32 ∨ ∃ w ∈ ws, c ∈ w := by
  intro ws
  induction ws with
  | nil => intro c hc; simp [joinSpace] at hc
  | cons w ws ih =>
    intro c hc
    cases ws with
    | nil =>
      simp only [joinSpace] at hc
      exact Or.inr ⟨w, List.mem_cons_self _ _, hc⟩
    | cons w2 rest =>
      simp only [joinSpace, List.mem_append, List.mem_cons] at hc
      rcases hc with hw | hc32 | hrest
      · exact Or.inr ⟨w, List.mem_cons_self _ _, hw⟩
      · exact Or.inl hc32
      · rcases ih c hrest with h32 | ⟨w3, hw3, hc3⟩
        · exact Or.inl h32
        · exact Or.inr ⟨w3, List.mem_cons_of_mem _ hw3, hc3⟩

theorem joinSpace_lower_fixed (ws : List PyStr)
    (h : ∀ w ∈ ws, ∀ c ∈ w, lowerChar c = c) :
    lowerStr (joinSpace ws) = joinSpace ws := by
  unfold lowerStr
  have hfix : ∀ c ∈ joinSpace ws, lowerChar c = c := by
    intro c hc
    rcases mem_joinSpace ws c hc with rfl | ⟨w, hw, hcw⟩
    · decide
    · exact h w hw c hcw
  calc List.map lowerChar (joinSpace ws) = List.map id (joinSpace ws) :=
        List.map_congr_left hfix
    _ = joinSpace ws := List.map_id _

theorem takeWhile_append_cons (w t : PyStr) (x : Nat)
    (hw : ∀ c ∈ w, notSpace c = true) (hx : notSpace x = false) :
    (w ++ x :: t).takeWhile notSpace = w := by
  induction w with
  | nil => simp [List.takeWhile_cons, hx]
  | cons a w ih =>
    have ha := hw a (List.mem_cons_self a w)
    simp [List.takeWhile_cons, ha,
      ih (fun c hc => hw c (List.mem_cons_of_mem a hc))]

theorem dropWhile_append_cons (w t : PyStr) (x : Nat)
    (hw : ∀ c ∈ w, notSpace c = true) (hx : notSpace x = false) :
    (w ++ x :: t).dropWhile notSpace = x :: t := by
  induction w with
  | nil => simp [List.dropWhile_cons, hx]
  | cons a w ih =>
    have ha := hw a (List.mem_cons_self a w)
    simp [List.dropWhile_cons, ha,
      ih (fun c hc => hw c (List.mem_cons_of_mem a hc))]

theorem splitWS_single (w : PyStr) (hne : w ≠ [])
    (hw : ∀ c ∈ w, notSpace c = true) : splitWS w = [w] := by
  match w with
  | [] => exact absurd rfl hne
  | c :: cs =>
    have hc : isSpace c = false := by
      have h1 := hw c (List.mem_cons_self c cs)
      simpa [notSpace] using h1
    rw [splitWS_cons_word hc,
      List.takeWhile_eq_self_iff.mpr
        (fun d hd => hw d (List.mem_cons_of_mem c hd)),
      List.dropWhile_eq_nil_iff.mpr
        (fun d hd => hw d (List.mem_cons_of_mem c hd))]
    rfl

theorem splitWS_joinSpace (ws : List PyStr)
    (h : ∀ w ∈ ws, w ≠ [] ∧ ∀ c ∈ w, notSpace c = true) :
    splitWS (joinSpace ws) = ws := by
  induction ws with
  | nil => rfl
  | cons w ws ih =>
    cases ws with
    | nil =>
      obtain ⟨hne, hw⟩ := h w (List.mem_cons_self _ _)
      simpa [joinSpace] using splitWS_single w hne hw
    | cons w2 rest =>
      obtain ⟨hne, hw⟩ := h w (List.mem_cons_self _ _)
      match w, hne with
      | c :: cs, _ =>
        have hc : isSpace c = false := by
          have h1 := hw c (List.mem_cons_self _ _)
          simpa [notSpace] using h1
        have hcs : ∀ d ∈ cs, notSpace d = true :=
          fun d hd => hw d (List.mem_cons_of_mem c hd)
        show splitWS (c :: (cs ++ 32 :: joinSpace (w2 :: rest))) = _
        rw [splitWS_cons_word hc,
          takeWhile_append_cons cs _ 32 hcs (by decide),
          dropWhile_append_cons cs _ 32 hcs (by decide),
          splitWS_cons_space (by decide),
          ih (fun v hv => h v (List.mem_cons_of_mem _ hv))]

/-- C9: `normalize_text` never fails — it is a total function, in
particular defined on the empty string — and it is idempotent:
normalizing an already-normalized string returns it unchanged. -/
theorem normalize_text_idempotent (s : PyStr) :
    normalize_text (normalize_text s) = normalize_text s
    ∧ normalize_text [] = [] := by
  constructor
  · have hwords := splitWS_words (stripStr (lowerStr s))
    have hstable : ∀ w ∈ splitWS (stripStr (lowerStr s)), ∀ c ∈ w,
        lowerChar c = c := by
      intro w hw c hc
      have hmem : c ∈ stripStr (lowerStr s) := ((hwords w hw).2 c hc).2
      have hlow : c ∈ lowerStr s := mem_of_mem_stripStr hmem
      obtain ⟨c0, _, rfl⟩ := List.mem_map.mp hlow
      exact lowerChar_idem c0
    have hprops : ∀ w ∈ splitWS (stripStr (lowerStr s)), w ≠ [] ∧
        ∀ c ∈ w, notSpace c = true :=
      fun w hw => ⟨(hwords w hw).1, fun c hc => ((hwords w hw).2 c hc).1⟩
    show joinSpace (splitWS (stripStr (lowerStr
        (joinSpace (splitWS (stripStr (lowerStr s))))))) = _
    rw [joinSpace_lower_fixed _ hstable, splitWS_stripStr,
      splitWS_joinSpace _ hprops]
    rfl
  · rfl

end NewsBot
